import Mathlib

/-!
Verification of the resource-schema module `kinto/core/resource/schema.py`.

The module defines declarative validation/coercion schemas on top of an
external declarative schema library (the spec's "pre-existing declarative
schema library": schema nodes with a type kind, a `missing` value used when
the input is absent, an optional validator, and `Mapping`/`Sequence` type
kinds with an unknown-key policy preserve/ignore/raise).  That library is an
external collaborator (spec, section 1 "OUT OF SCOPE"), so its primitives are
modelled here from the contract the spec states for them; the module's own
classes are translated from the source.

Conventions of the embedding:
  * `Value` is the universe of runtime values flowing through deserialization:
    JSON-like data plus the library's two sentinels (`null` for "absent" and
    `drop` for "remove from output") and the host language's `None`.
  * Fallible operations return `Except Err Value`.  `Err.invalid` /
    `Err.invalidSub` model the library's single `Invalid` error kind (a
    message, or a mapping of sub-node name to sub-error); `Err.valueError`
    models a host-language exception (e.g. `int()` on a non-numeric string)
    escaping the library's error discipline.
  * Mapping children are `ChildSpec`s: a name plus the child node's complete
    deserialization function.
-/

/-- Runtime values of the deserialization engine.  `null` is the library's
"absent" sentinel, `drop` its "remove this key from the output" sentinel, and
`pyNone` the host language's None (the default `missing` of `TimeStamp`).
`num m k` models a decimal (float) literal with value m / 10^k, as produced by
the native-value guesser. -/
inductive Value where
  | null
  | drop
  | pyNone
  | str (s : String)
  | int (n : Int)
  | bool (b : Bool)
  | num (mantissa : Int) (scale : Nat)
  | list (xs : List Value)
  | map (entries : List (String × Value))

/-- Errors: `invalid`/`invalidSub` model the schema library's `Invalid`
exception (message, or named sub-errors collected from children);
`valueError` models a host-language runtime error that is not an `Invalid`. -/
inductive Err where
  | invalid (msg : String)
  | invalidSub (subs : List (String × Err))
  | valueError (msg : String)

/-- An error is of the library's `Invalid` kind unless it is a host-language
`valueError`. -/
def Err.isInvalidKind : Err → Bool
  | .valueError _ => false
  | .invalid _ => true
  | .invalidSub _ => true

/-- Unknown-key policy of a mapping type (spec section 3). -/
inductive Unknown where
  | preserve
  | ignore
  | raiseU
deriving DecidableEq

/-- A named child of a mapping schema, carrying its full deserialization
function. -/
structure ChildSpec where
  name : String
  deser : Value → Except Err Value

/-- Absence of a validator on a node. -/
def noValidator : Value → Option Err := fun _ => Option.none

/-- Key lookup in a mapping cstruct; the library's `value.pop(name, null)`
yields `null` when the key is absent. -/
def lookupD (m : List (String × Value)) (k : String) : Value :=
  match m.find? (fun kv => kv.1 == k) with
  | some kv => kv.2
  | Option.none => Value.null

/-- Modelled from the spec: the external library's `SchemaNode.deserialize`
contract (spec section 3, "Schema Node"): run the type's deserialization; if
the result is the absent sentinel, substitute the node's `missing` value
(raising Invalid "Required" when `missing` is itself the absent sentinel, and
skipping validation); otherwise run the node's validator on the result. -/
def nodePost (missing : Value) (validator : Value → Option Err) (appstruct : Value) :
    Except Err Value :=
  match appstruct with
  | .null =>
    match missing with
    | .null => .error (.invalid "Required")
    | m => .ok m
  | a =>
    match validator a with
    | some e => .error e
    | Option.none => .ok a

def schemaNodeDeserialize (typD : Value → Except Err Value) (missing : Value)
    (validator : Value → Option Err) (cstruct : Value) : Except Err Value :=
  match typD cstruct with
  | .error e => .error e
  | .ok appstruct => nodePost missing validator appstruct

/-- Modelled from the spec: the external library's `Mapping` type kind with an
unknown-key policy (spec sections 3 and 7): absent input passes through;
non-mapping input is Invalid; otherwise each declared child deserializes the
value found under its name (the absent sentinel when missing), children whose
result is the `drop` sentinel are left out of the output, all child failures
are collected into one Invalid, and the residual (undeclared) keys are kept,
silently dropped, or rejected according to the policy. -/
def errOf (p : String × Except Err Value) : Option (String × Err) :=
  match p.2 with
  | .error e => some (p.1, e)
  | .ok _ => Option.none

def okOf (p : String × Except Err Value) : Option (String × Value) :=
  match p.2 with
  | .ok .drop => Option.none
  | .ok v => some (p.1, v)
  | .error _ => Option.none

/-- The per-child results of a mapping deserialization: each declared child
deserializes the value found under its name (the absent sentinel when the
key is missing). -/
def mappingOutcomes (children : List ChildSpec) (m : List (String × Value)) :
    List (String × Except Err Value) :=
  children.map (fun c => (c.name, c.deser (lookupD m c.name)))

/-- The residual of a mapping deserialization: the input entries whose key is
not the name of any declared child. -/
def mappingResidual (children : List ChildSpec) (m : List (String × Value)) :
    List (String × Value) :=
  m.filter (fun kv => !(children.any (fun c => c.name == kv.1)))

def mappingType (u : Unknown) (children : List ChildSpec) (cstruct : Value) :
    Except Err Value :=
  match cstruct with
  | .null => .ok .null
  | .map m =>
    let outcomes := mappingOutcomes children m
    let residual := mappingResidual children m
    let errs := outcomes.filterMap errOf
    let oks := outcomes.filterMap okOf
    if u = .raiseU ∧ residual.isEmpty = false then
      .error (.invalid "Unrecognized keys in mapping")
    else if errs.isEmpty = false then
      .error (.invalidSub errs)
    else
      match u with
      | .preserve => .ok (.map (oks ++ residual))
      | _ => .ok (.map oks)
  | _ => .error (.invalid "is not a mapping")

/-- Index-named error collection for sequence elements. -/
def seqErrs : Nat → List (Except Err Value) → List (String × Err)
  | _, [] => []
  | i, .error e :: rest => (toString i, e) :: seqErrs (i + 1) rest
  | i, .ok _ :: rest => seqErrs (i + 1) rest

/-- Successful, non-dropped element results of a sequence. -/
def seqOks (outcomes : List (Except Err Value)) : List Value :=
  outcomes.filterMap (fun o =>
    match o with
    | .ok .drop => Option.none
    | .ok v => some v
    | .error _ => Option.none)

/-- Modelled from the spec: the external library's `Sequence` type kind:
absent input passes through; non-list input is Invalid ("not iterable", which
excludes plain strings); otherwise every element deserializes through the
single child node, element failures are collected, and dropped elements are
omitted. -/
def sequenceType (child : Value → Except Err Value) (cstruct : Value) :
    Except Err Value :=
  match cstruct with
  | .null => .ok .null
  | .list xs =>
    let outcomes := xs.map child
    if (seqErrs 0 outcomes).isEmpty = false then
      .error (.invalidSub (seqErrs 0 outcomes))
    else .ok (.list (seqOks outcomes))
  | _ => .error (.invalid "is not iterable")

/-- Modelled from the spec: the external library's `String` type kind: absent
input passes through, text passes through, anything else is Invalid. -/
def stringType : Value → Except Err Value
  | .null => .ok .null
  | .str s => .ok (.str s)
  | _ => .error (.invalid "is not a string")

/-- Modelled from the spec: the external library's `Integer` type kind: absent
input passes through, integers pass through, anything else is Invalid. -/
def integerType : Value → Except Err Value
  | .null => .ok .null
  | .int n => .ok (.int n)
  | _ => .error (.invalid "is not a number")

/-- The module's type-agnostic `Any` schema type (source lines 167-171): its
deserialization returns the cstruct unchanged. -/
def anyType (cstruct : Value) : Except Err Value := .ok cstruct

-- Python-level helpers (semantics of the host-language operations the source
-- uses: str.split, slicing, int(), and the two regular expressions applied
-- with prefix-matching semantics).

/-- Split a character list on a separator character; the accumulator holds the
current chunk reversed.  Mirrors Python `str.split(sep)` with a one-character
separator, including `"" ↦ [""]`. -/
def splitOnCharGo (sep : Char) : List Char → List Char → List String
  | acc, [] => [String.mk acc.reverse]
  | acc, c :: rest =>
    if c = sep then String.mk acc.reverse :: splitOnCharGo sep [] rest
    else splitOnCharGo sep (c :: acc) rest

/-- Python `s.split(sep)` for a one-character separator. -/
def splitOnChar (sep : Char) (s : String) : List String :=
  splitOnCharGo sep [] s.toList

/-- Python `s.startswith(pre)`. -/
def pyStartsWith (pre s : String) : Bool :=
  pre.toList.isPrefixOf s.toList

/-- Python `s.split(',')`. -/
def pySplitComma (s : String) : List String := splitOnChar ',' s

/-- Python `s[1:-1]`: remove the first and the last character (empty when the
string has fewer than two characters). -/
def pyStrSlice1Neg1 (s : String) : String :=
  String.mk ((s.toList.drop 1).dropLast)

/-- Characters Python's `int()` strips around the literal. -/
def pyIntWs (c : Char) : Bool :=
  c = ' ' ∨ c = '\t' ∨ c = '\n' ∨ c = '\r' ∨ c = '\x0b' ∨ c = '\x0c'

/-- Digit run accepted by Python's `int()`: digits with single underscores
allowed between digits.  `acc` is the value of the digits consumed so far. -/
def pyIntDigitsGo : Nat → List Char → Option Nat
  | acc, [] => some acc
  | acc, '_' :: c :: rest =>
    if c.isDigit then pyIntDigitsGo (acc * 10 + (c.toNat - 48)) rest
    else Option.none
  | _, ['_'] => Option.none
  | acc, c :: rest =>
    if c.isDigit then pyIntDigitsGo (acc * 10 + (c.toNat - 48)) rest
    else Option.none

/-- Python `int(s)` on a text literal: optional surrounding whitespace,
optional sign, then a non-empty digit run (underscores permitted between
digits); `Option.none` models the `ValueError` raised on any other shape. -/
def pyIntParse (s : String) : Option Int :=
  let cs := ((s.toList.dropWhile pyIntWs).reverse.dropWhile pyIntWs).reverse
  let digits : List Char → Option Nat := fun l =>
    match l with
    | [] => Option.none
    | c :: rest =>
      if c.isDigit then pyIntDigitsGo (c.toNat - 48) rest else Option.none
  match cs with
  | '-' :: rest => (digits rest).map (fun n => -(n : Int))
  | '+' :: rest => (digits rest).map (fun n => (n : Int))
  | l => (digits l).map (fun n => (n : Int))

/-- Python `int(param[1:-1])` as used by `HeaderQuotedInteger.deserialize`: a
parse failure is a `ValueError`, not the library's `Invalid`. -/
def pyIntOfSlice (s : String) : Except Err Value :=
  match pyIntParse (pyStrSlice1Neg1 s) with
  | some n => .ok (.int n)
  | Option.none =>
    .error (.valueError ("invalid literal for int() with base 10: " ++ pyStrSlice1Neg1 s))

/-- Python `re.match(r'^"([0-9]+?)"$', s)` viewed as a Boolean: the pattern is
anchored on both sides, so it holds exactly when the string (or the string
minus one final newline, which Python's dollar anchor tolerates) is a double
quote, one or more ASCII digits, and a closing double quote. -/
def pyReMatchQuoted (s : String) : Bool :=
  let cs := s.toList
  let core := if cs.getLast? = some '\n' then cs.dropLast else cs
  match core with
  | '"' :: rest =>
    match rest.reverse with
    | '"' :: mid => mid ≠ [] ∧ mid.all (fun c => c.isDigit)
    | _ => false
  | _ => false

/-- Python `re.match(r'\*', s)` viewed as a Boolean: `re.match` anchors only
at the start, so the pattern holds exactly when the first character is a
literal asterisk — the rest of the string is unconstrained. -/
def pyReMatchStar (s : String) : Bool :=
  match s.toList with
  | '*' :: _ => true
  | _ => false

/-- Word characters of the regex `\w` (letters, digits, underscore). -/
def wordChar (c : Char) : Bool := c.isAlphanum ∨ c = '_'

/-- One iteration of the group `(/\w*)` of the patch-path pattern matched at
the current position: a slash followed by a greedy run of word characters;
returns the remaining input on success. -/
def pathGroupMatch : List Char → Option (List Char)
  | '/' :: rest => some (rest.dropWhile wordChar)
  | _ => Option.none

/-- Python `re.match(r'(/\w*)+', s)` viewed as a Boolean.  `re.match` only
anchors at the start and the pattern has no end anchor, so the match succeeds
exactly when the first group iteration matches at position 0 (further
iterations are optional and the remaining input is unconstrained). -/
def pathRegexMatch (s : String) : Bool := (pathGroupMatch s.toList).isSome

-- Validators used by the module.

/-- Failure message of the library's OneOf validator: it enumerates the valid
choice set, comma-joined. -/
def oneOfMsg (val : String) (choices : List String) : String :=
  "\"" ++ val ++ "\" is not one of " ++ String.intercalate ", " choices

/-- Modelled from the spec: the external library's OneOf validator — the value
must be one of the given choices, and the failure message enumerates the valid
set (spec section 4.2). -/
def oneOfCheck (choices : List String) (val : String) : Option Err :=
  if val ∈ choices then Option.none else some (.invalid (oneOfMsg val choices))

/-- OneOf as a node validator over values (applied to deserialized strings). -/
def oneOfValidator (choices : List String) : Value → Option Err := fun v =>
  match v with
  | .str s => oneOfCheck choices s
  | _ => some (.invalid (oneOfMsg "" choices))

/-- The class-level error message of `HeaderQuotedInteger` (source line 217). -/
def hqiErrorMessage : String := "The value should be integer between double quotes"

/-- The validator of `HeaderQuotedInteger` (source lines 218-219):
`colander.Any` over the anchored quoted-digits regex (with the class error
message) and the unanchored regex matching a literal asterisk; it passes when
either regex matches with Python prefix-match semantics. -/
def hqiValidator : Value → Option Err := fun v =>
  match v with
  | .str s =>
    if pyReMatchQuoted s ∨ pyReMatchStar s then Option.none
    else some (.invalid hqiErrorMessage)
  | _ => some (.invalid hqiErrorMessage)

-- ResourceSchema (source lines 11-64).

/-- ResourceSchema.schema_type (source lines 59-64): mapping whose unknown-key
policy is preserve when the preserve_unknown option is true and ignore
otherwise. -/
def resourceSchemaUnknown (preserveUnknownOpt : Bool) : Unknown :=
  if preserveUnknownOpt = true then .preserve else .ignore

/-- Deserialization of a ResourceSchema node with the given option value and
declared fields: the inherited mapping-schema node with the policy computed by
schema_type.  A plain MappingSchema node carries no missing value (required)
and no validator. -/
def resourceSchemaDeserialize (preserveUnknownOpt : Bool)
    (children : List ChildSpec) : Value → Except Err Value :=
  schemaNodeDeserialize (mappingType (resourceSchemaUnknown preserveUnknownOpt) children)
    .null noValidator

-- PermissionsSchema (source lines 67-117).

/-- PermissionsSchema._get_node_principals (source lines 114-117): a node of
Sequence type over a String child, with missing = drop. -/
def permNodeDeser : Value → Except Err Value :=
  schemaNodeDeserialize
    (sequenceType (schemaNodeDeserialize stringType .null noValidator))
    .drop noValidator

/-- The children installed by PermissionsSchema.__init__ (source lines 85-86):
one principals node per known permission name. -/
def permChildren (knownPerms : List String) : List ChildSpec :=
  knownPerms.map (fun p => ⟨p, permNodeDeser⟩)

/-- PermissionsSchema.schema_type (source lines 88-92): Mapping with policy
raise when a known-permission vocabulary was supplied, preserve otherwise. -/
def permissionsSchemaTypD (knownPerms : List String) : Value → Except Err Value :=
  if knownPerms.isEmpty = false then mappingType .raiseU (permChildren knownPerms)
  else mappingType .preserve []

/-- First error produced by the closed-vocabulary key check loop
(source lines 102-103): the loop raises at the first offending key. -/
def firstSome : List (Option Err) → Option Err
  | [] => Option.none
  | Option.none :: rest => firstSome rest
  | some e :: _ => some e

/-- The throwaway SequenceSchema(SchemaNode(String())) built by the
open-vocabulary branch (source line 108): a required sequence-of-strings
node. -/
def openPermSeqDeser : Value → Except Err Value :=
  schemaNodeDeserialize
    (sequenceType (schemaNodeDeserialize stringType .null noValidator))
    .null noValidator

/-- The open-vocabulary loop of PermissionsSchema.deserialize (source lines
107-112): each value deserializes through the sequence-of-strings schema; the
first failing entry raises. -/
def openPermsGo : List (String × Value) → Except Err (List (String × Value))
  | [] => .ok []
  | (k, v) :: rest =>
    match openPermSeqDeser v with
    | .error e => .error e
    | .ok pv =>
      match openPermsGo rest with
      | .error e => .error e
      | .ok r => .ok ((k, pv) :: r)

/-- PermissionsSchema.deserialize (source lines 94-112).  Non-mapping input
delegates to the default node deserialization; with a closed vocabulary every
input key is OneOf-checked against the known names and then the structural
mapping (policy raise) runs; with an open vocabulary each value independently
deserializes as a sequence of strings and the resulting mapping is returned
directly. -/
def permissionsSchemaDeserialize (knownPerms : List String) (cstruct : Value) :
    Except Err Value :=
  match cstruct with
  | .map m =>
    if knownPerms.isEmpty = false then
      match firstSome (m.map (fun kv => oneOfCheck knownPerms kv.1)) with
      | some e => .error e
      | Option.none =>
        schemaNodeDeserialize (permissionsSchemaTypD knownPerms) .null noValidator (.map m)
    else
      match openPermsGo m with
      | .error e => .error e
      | .ok permissions => .ok (.map permissions)
  | c => schemaNodeDeserialize (permissionsSchemaTypD knownPerms) .null noValidator c

-- TimeStamp (source lines 123-147).

/-- TimeStamp.deserialize (source lines 144-147).  `msec_time` lives in
kinto.core.utils, outside src/; modelled from the spec as the parameter `now`
(the current server time in epoch milliseconds at the moment of the call).
When the input is absent and auto_now holds, the current time is substituted
before the inherited Integer-node deserialization; the node's missing value
(class default: the host None) applies otherwise. -/
def timeStampDeserialize (autoNow : Bool) (missing : Value) (now : Int)
    (cstruct : Value) : Except Err Value :=
  let c := match cstruct with
    | .null => if autoNow then Value.int now else Value.null
    | v => v
  schemaNodeDeserialize integerType missing noValidator c

-- HeaderQuotedInteger (source lines 174-185 and 213-226).

/-- The inherited node deserialization of HeaderQuotedInteger: a String-typed
HeaderField with missing = drop and the quoted-integer validator.  (The
HeaderField byte-decoding branch only concerns raw byte inputs, which are
outside the text inputs considered here.) -/
def hqiNodeDeser : Value → Except Err Value :=
  schemaNodeDeserialize stringType .drop hqiValidator

/-- HeaderQuotedInteger.deserialize (source lines 221-226): run the inherited
deserialization; pass the drop sentinel and the literal asterisk through
unchanged; otherwise strip the first and last character and apply Python
`int()` — whose failure is a ValueError, not an Invalid. -/
def headerQuotedIntegerDeserialize (cstruct : Value) : Except Err Value :=
  match hqiNodeDeser cstruct with
  | .error e => .error e
  | .ok .drop => .ok .drop
  | .ok (.str s) => if s = "*" then .ok (.str "*") else pyIntOfSlice s
  | .ok _ =>
    .error (.valueError "int() argument must be a string, not the given value")

-- Native-value guessing and the querystring schemas (source lines 188-294).

/-- Value of a non-empty all-digit character run. -/
def digitRunVal : List Char → Option Nat
  | [] => Option.none
  | cs =>
    if cs.all (fun c => c.isDigit) then
      some (cs.foldl (fun acc c => acc * 10 + (c.toNat - 48)) 0)
    else Option.none

/-- Integer literal attempt of the native-value guesser: an optional minus
sign followed by digits. -/
def parseIntLit (s : String) : Option Int :=
  match s.toList with
  | '-' :: rest => (digitRunVal rest).map (fun n => -(n : Int))
  | cs => (digitRunVal cs).map (fun n => (n : Int))

/-- Decimal (float) literal attempt of the native-value guesser: an optional
minus sign, digits, a dot, digits; the value is returned as mantissa and
scale. -/
def parseFloatLit (s : String) : Option (Int × Nat) :=
  let core : List Char → Option (Int × Nat) := fun cs =>
    match splitOnChar '.' (String.mk cs) with
    | [a, b] =>
      match digitRunVal a.toList, digitRunVal b.toList with
      | some ia, some fb => some ((ia * 10 ^ b.length + fb : Int), b.length)
      | _, _ => Option.none
    | _ => Option.none
  match s.toList with
  | '-' :: rest => (core rest).map (fun p => (-p.1, p.2))
  | cs => core cs

/-- Modelled from the spec: `native_value` from kinto.core.utils (imported at
source line 5 but not under src/).  Per spec sections 3 and 9 it is an ordered
list of typed parse attempts on text — boolean literals, integer, float —
returning the first success and falling back to the string itself;
non-text values are returned unchanged. -/
def nativeValue : Value → Value
  | .str s =>
    if s = "true" then .bool true
    else if s = "false" then .bool false
    else
      match parseIntLit s with
      | some n => .int n
      | Option.none =>
        match parseFloatLit s with
        | some p => .num p.1 p.2
        | Option.none => .str s
  | v => v

/-- The inherited node deserialization of FieldList (source lines 199-205):
Sequence type over the class-level String child with missing = drop; the
FieldList node itself has missing = drop and no validator. -/
def fieldListNodeDeser : Value → Except Err Value :=
  schemaNodeDeserialize
    (sequenceType (schemaNodeDeserialize stringType .drop noValidator))
    .drop noValidator

/-- FieldList.deserialize (source lines 207-210) composed with the inherited
QueryField.deserialize (source lines 193-196): text is first split on commas
into a list of strings; a value that is still text afterwards would be
native-value guessed (unreachable once split); then the sequence node runs. -/
def fieldListDeserialize (cstruct : Value) : Except Err Value :=
  let c1 := match cstruct with
    | .str s => Value.list ((pySplitComma s).map Value.str)
    | v => v
  let c2 := match c1 with
    | .str s => nativeValue (.str s)
    | v => v
  fieldListNodeDeser c2

/-- The filter-guessing loop of QuerySchema.deserialize (source lines
284-292): keys prefixed in_ or exclude_ have their value deserialized through
a fresh FieldList — when that yields a list, each element is native-value
guessed; any other key has its value native-value guessed directly.  A
FieldList failure (non-text, non-list value) propagates. -/
def queryFiltersGo : List (String × Value) → Except Err (List (String × Value))
  | [] => .ok []
  | (k, v) :: rest =>
    if pyStartsWith "in_" k ∨ pyStartsWith "exclude_" k then
      match fieldListDeserialize v with
      | .error e => .error e
      | .ok (.list xs) =>
        match queryFiltersGo rest with
        | .error e => .error e
        | .ok r => .ok ((k, .list (xs.map nativeValue)) :: r)
      | .ok _ => queryFiltersGo rest
    else
      match queryFiltersGo rest with
      | .error e => .error e
      | .ok r => .ok ((k, nativeValue v) :: r)

/-- Python dict.update: existing keys are overwritten in place, new keys are
appended in order. -/
def pyDictUpdate (d u : List (String × Value)) : List (String × Value) :=
  (d.map (fun kv =>
    match u.find? (fun uv => uv.1 == kv.1) with
    | some uv => (kv.1, uv.2)
    | Option.none => kv))
  ++ u.filter (fun uv => !(d.any (fun kv => kv.1 == uv.1)))

/-- QuerySchema.deserialize for the base QuerySchema (source lines 258-294),
which declares no fields: the inherited mapping (policy ignore, missing =
drop) validates the declared fields (none here), a drop result returns
directly, then the raw input's items run through the filter-guessing loop and
the declared-field values are merged on top. -/
def querySchemaDeserialize (cstruct : Value) : Except Err Value :=
  match schemaNodeDeserialize (mappingType .ignore []) .drop noValidator cstruct with
  | .error e => .error e
  | .ok .drop => .ok .drop
  | .ok (.map schemaValues) =>
    match cstruct with
    | .map items =>
      match queryFiltersGo items with
      | .error e => .error e
      | .ok values => .ok (.map (pyDictUpdate values schemaValues))
    | _ => .error (.valueError "attribute items is not defined on the cstruct")
  | .ok _ => .error (.valueError "unexpected inherited deserialization result")

-- RecordSchema (source lines 325-352).

/-- A bindable schema node: the type's deserialization function together with
the node attributes that binding mutates (`missing`, `default`).  `defaultVal`
records the node's `default` attribute, which the library uses only when
serializing absence (spec section 3), never during deserialization. -/
structure SchemaNodeM where
  typD : Value → Except Err Value
  missing : Value
  validator : Value → Option Err
  defaultVal : Option Value

/-- Node-level deserialization of a bindable schema node. -/
def SchemaNodeM.deserialize (n : SchemaNodeM) (c : Value) : Except Err Value :=
  schemaNodeDeserialize n.typD n.missing n.validator c

/-- The deferred `data` resolution of RecordSchema (source lines 327-340):
when a concrete data schema is supplied at bind time, probe it on the empty
mapping; if that deserialization succeeds, set the node's default to the
empty mapping and its missing to the drop sentinel; an Invalid from the probe
leaves the node unchanged. -/
def recordSchemaBindData (d : SchemaNodeM) : SchemaNodeM :=
  match d.deserialize (.map []) with
  | .ok _ => { d with defaultVal := some (.map []), missing := .drop }
  | .error _ => d

/-- Deserialization of a RecordSchema bound with a concrete `data` schema and
no permissions schema: a mapping (policy raise, source lines 350-352) whose
sole child is the resolved data node (the unresolved `permissions` deferred
does not become a child). -/
def recordSchemaBound (d : SchemaNodeM) : Value → Except Err Value :=
  schemaNodeDeserialize
    (mappingType .raiseU [⟨"data", (recordSchemaBindData d).deserialize⟩])
    .null noValidator

/-- A data schema whose every sub-field has a default — the simplest instance:
a ResourceSchema with no declared fields and default options (an empty body
deserializes successfully). -/
def simpleRecord : SchemaNodeM :=
  ⟨mappingType (resourceSchemaUnknown true) [], .null, noValidator, Option.none⟩

-- JsonPatchOperationSchema (source lines 355-373).

/-- The op validator (source lines 358-360): OneOf over the six operation
names. -/
def opValidator : Value → Option Err :=
  oneOfValidator ["test", "add", "remove", "replace", "move", "copy"]

/-- The path validator (source lines 362-363): the patch-path regex applied
with Python prefix-match semantics. -/
def pathValidatorV : Value → Option Err := fun v =>
  match v with
  | .str s =>
    if pathRegexMatch s then Option.none
    else some (.invalid "String does not match expected pattern")
  | _ => some (.invalid "String does not match expected pattern")

/-- JsonPatchOperationSchema deserialization (source lines 355-373): a mapping
(policy raise) with a required enum-validated op, a required regex-validated
path, an optional regex-validated from, and an optional unrestricted value. -/
def jsonPatchOpDeserialize : Value → Except Err Value :=
  schemaNodeDeserialize
    (mappingType .raiseU
      [⟨"op", schemaNodeDeserialize stringType .null opValidator⟩,
       ⟨"path", schemaNodeDeserialize stringType .null pathValidatorV⟩,
       ⟨"from", schemaNodeDeserialize stringType .drop pathValidatorV⟩,
       ⟨"value", schemaNodeDeserialize anyType .drop noValidator⟩])
    .null noValidator

-- Claim theorems.

/-- C4: HeaderQuotedInteger.deserialize maps the input given as the quoted
digit string to the integer 42, maps the lone asterisk to itself unchanged,
and fails with the Invalid class error message on the unquoted digit string
and on the quoted non-digit string. -/
theorem hqi_concrete_values :
    headerQuotedIntegerDeserialize (.str "\"42\"") = .ok (.int 42) ∧
    headerQuotedIntegerDeserialize (.str "*") = .ok (.str "*") ∧
    headerQuotedIntegerDeserialize (.str "42") = .error (.invalid hqiErrorMessage) ∧
    headerQuotedIntegerDeserialize (.str "\"abc\"") = .error (.invalid hqiErrorMessage) :=
  ⟨rfl, rfl, rfl, rfl⟩

/-- C3: counter-evidence for the safety claim.  On the header string made of
an asterisk followed by junk, the validator passes (the asterisk regex is
unanchored at the end, so it prefix-matches), the value is not the lone
asterisk, and Python int() on the stripped slice (the empty string) raises a
ValueError — an error that is not the library's Invalid kind escapes the
field. -/
theorem hqi_star_junk_value_error :
    headerQuotedIntegerDeserialize (.str "*x")
      = .error (.valueError "invalid literal for int() with base 10: ") ∧
    Err.isInvalidKind (.valueError "invalid literal for int() with base 10: ") = false :=
  ⟨rfl, rfl⟩

/-- C6: for the closed vocabulary of write and read, deserializing the mapping
giving alice the write permission succeeds unchanged, while a mapping with the
unknown name admin fails with the OneOf message that enumerates the valid
set — literally the message "admin is not one of write, read" (with the value
quoted). -/
theorem permissions_closed_vocab_examples :
    permissionsSchemaDeserialize ["write", "read"] (.map [("write", .list [.str "alice"])])
      = .ok (.map [("write", .list [.str "alice"])]) ∧
    permissionsSchemaDeserialize ["write", "read"] (.map [("admin", .list [.str "bob"])])
      = .error (.invalid (oneOfMsg "admin" ["write", "read"])) ∧
    oneOfMsg "admin" ["write", "read"] = "\"admin\" is not one of write, read" :=
  ⟨rfl, rfl, rfl⟩

/-- C8: for an open-vocabulary PermissionsSchema, deserializing a mapping from
an arbitrary permission name to a list of principal strings succeeds and
returns exactly that mapping, while a mapping whose value is a plain string
(not a list) fails with an error of the Invalid kind, because each value must
validate as a sequence of strings. -/
theorem permissions_open_vocab_examples :
    permissionsSchemaDeserialize [] (.map [("custom:perm", .list [.str "x", .str "y"])])
      = .ok (.map [("custom:perm", .list [.str "x", .str "y"])]) ∧
    permissionsSchemaDeserialize [] (.map [("custom:perm", .str "not-a-list")])
      = .error (.invalid "is not iterable") ∧
    Err.isInvalidKind (.invalid "is not iterable") = true :=
  ⟨rfl, rfl, rfl⟩

/-- C1 counterexample: binding a RecordSchema with the concrete data schema
simpleRecord — which deserializes the empty mapping successfully — and then
deserializing the empty body succeeds but yields the empty mapping, not a
mapping carrying a data key: the probed data node gets missing = drop and is
therefore omitted from the output. -/
theorem recordSchema_bound_empty_counterexample :
    simpleRecord.deserialize (.map []) = .ok (.map []) ∧
    recordSchemaBound simpleRecord (.map []) = .ok (.map []) ∧
    recordSchemaBound simpleRecord (.map []) ≠ .ok (.map [("data", .map [])]) := by
  refine ⟨rfl, rfl, ?_⟩
  intro h
  rw [show recordSchemaBound simpleRecord (.map []) = Except.ok (Value.map []) from rfl] at h
  simp at h

/-- C2 counterexample: a mapping schema with preserve_unknown = false (policy
ignore) nested inside one with preserve_unknown = true (policy preserve),
deserializing input with an unknown key at both levels, does not reject the
inner unknown key: deserialization succeeds, the inner unknown key is
silently dropped, and the outer unknown key is passed through. -/
theorem nested_unknown_policy_counterexample :
    resourceSchemaDeserialize true
        [⟨"child", resourceSchemaDeserialize false
          [⟨"known", schemaNodeDeserialize stringType .drop noValidator⟩]⟩]
        (.map [("child", .map [("known", .str "v"), ("zap", .str "x")]), ("extra", .str "y")])
      = .ok (.map [("child", .map [("known", .str "v")]), ("extra", .str "y")]) :=
  rfl

/-- C7: TimeStamp.deserialize on absent input substitutes the current server
time (epoch milliseconds, the msec_time value at the moment of the call) when
auto_now holds, whatever the configured missing value; and with auto_now off,
absent input yields the configured missing value unchanged (the class default
being the host None). -/
theorem timeStamp_deserialize_absent (now : Int) (m : Value) (hm : m ≠ Value.null) :
    timeStampDeserialize true m now .null = .ok (.int now) ∧
    timeStampDeserialize false m now .null = .ok m := by
  refine ⟨rfl, ?_⟩
  cases m with
  | null => exact absurd rfl hm
  | _ => rfl

/-- C7 witness: the theorem applied at a concrete time and the class-default
missing value (the host None). -/
theorem timeStamp_deserialize_absent_witness :
    timeStampDeserialize true .pyNone 1700000000000 .null = .ok (.int 1700000000000) ∧
    timeStampDeserialize false .pyNone 1700000000000 .null = .ok .pyNone :=
  timeStamp_deserialize_absent 1700000000000 .pyNone (fun h => Value.noConfusion h)

/-- C1 amended: after binding a RecordSchema with a binding context whose data
schema successfully deserializes the empty mapping (the probe at source lines
333-339 succeeds, so the data node gets default = empty mapping and missing =
drop), deserializing the empty body through the bound RecordSchema succeeds
and yields the empty mapping — the data field is dropped from the output, not
materialized with its default.  The hypothesis on the data node's type
deserialization is the library invariant that every type kind passes the
absent sentinel through. -/
theorem recordSchema_bound_empty_amended (d : SchemaNodeM) (w : Value)
    (hnull : d.typD .null = .ok .null)
    (hprobe : d.deserialize (.map []) = .ok w) :
    recordSchemaBound d (.map []) = .ok (.map []) := by
  have hbind : recordSchemaBindData d =
      { d with defaultVal := some (.map []), missing := .drop } := by
    unfold recordSchemaBindData
    rw [hprobe]
  have hchild :
      ({ d with defaultVal := some (.map []), missing := .drop } : SchemaNodeM).deserialize .null = .ok .drop := by
    unfold SchemaNodeM.deserialize schemaNodeDeserialize
    simp [hnull, nodePost]
  unfold recordSchemaBound
  rw [hbind]
  unfold schemaNodeDeserialize mappingType mappingOutcomes mappingResidual
  simp [lookupD, hchild, okOf, errOf, noValidator, nodePost]

/-- C1 witness: the amended theorem applied to the concrete data schema
simpleRecord, whose probe on the empty mapping succeeds. -/
theorem recordSchema_bound_empty_amended_witness :
    recordSchemaBound simpleRecord (.map []) = .ok (.map []) :=
  recordSchema_bound_empty_amended simpleRecord (.map []) rfl rfl

/-- C2 amended: a mapping schema with preserve_unknown = false (policy ignore)
nested inside one with preserve_unknown = true (policy preserve): for any
unknown inner key, unknown outer key and values, deserializing input carrying
unknown keys at both levels succeeds, silently dropping the unknown key at
the inner level while accepting and passing through the unknown key at the
outer level. -/
theorem nested_unknown_policy_amended (ki ko sv : String) (vi vo : Value)
    (h1 : ki ≠ "known") (h2 : ko ≠ "child") :
    resourceSchemaDeserialize true
        [⟨"child", resourceSchemaDeserialize false
          [⟨"known", schemaNodeDeserialize stringType .drop noValidator⟩]⟩]
        (.map [("child", .map [("known", .str sv), (ki, vi)]), (ko, vo)])
      = .ok (.map [("child", .map [("known", .str sv)]), (ko, vo)]) := by
  have h1v : (("known" : String) == ki) = false := by
    simp only [beq_eq_false_iff_ne]
    exact fun h => h1 h.symm
  have h2v : (("child" : String) == ko) = false := by
    simp only [beq_eq_false_iff_ne]
    exact fun h => h2 h.symm
  simp [resourceSchemaDeserialize, resourceSchemaUnknown, schemaNodeDeserialize,
    mappingType, mappingOutcomes, mappingResidual, lookupD, okOf, errOf,
    stringType, noValidator, nodePost, h1v, h2v]

/-- C2 witness: the amended theorem applied at concrete unknown keys and
values. -/
theorem nested_unknown_policy_amended_witness :
    resourceSchemaDeserialize true
        [⟨"child", resourceSchemaDeserialize false
          [⟨"known", schemaNodeDeserialize stringType .drop noValidator⟩]⟩]
        (.map [("child", .map [("known", .str "w"), ("surprise", .int 1)]),
               ("other", .str "z")])
      = .ok (.map [("child", .map [("known", .str "w")]), ("other", .str "z")]) :=
  nested_unknown_policy_amended "surprise" "other" "w" (.int 1) (.str "z")
    (by decide) (by decide)

-- Helper lemmas for the querystring and permissions proofs.

theorem schemaNodeDeserialize_typD_ok
    (typD : Value → Except Err Value) (missing : Value) (validator : Value → Option Err)
    (c a : Value) (h : typD c = .ok a) :
    schemaNodeDeserialize typD missing validator c = nodePost missing validator a := by
  unfold schemaNodeDeserialize
  rw [h]

theorem seqErrs_all_ok (l : List String) : ∀ i,
    seqErrs i (l.map (fun e => Except.ok (Value.str e))) = [] := by
  induction l with
  | nil => intro i; rfl
  | cons x xs ih => intro i; simp [seqErrs, ih]

theorem seqOks_all_str (l : List String) :
    seqOks (l.map (fun e => Except.ok (Value.str e))) = l.map Value.str := by
  induction l with
  | nil => rfl
  | cons x xs ih => simp [seqOks, List.filterMap_cons] at ih ⊢; exact ih

theorem sequenceType_map_str (l : List String) :
    sequenceType (schemaNodeDeserialize stringType .drop noValidator)
      (.list (l.map Value.str)) = .ok (.list (l.map Value.str)) := by
  simp only [sequenceType, List.map_map]
  rw [show (schemaNodeDeserialize stringType Value.drop noValidator ∘ Value.str)
      = (fun e => Except.ok (Value.str e)) from funext (fun e => rfl)]
  rw [seqErrs_all_ok, seqOks_all_str]
  rfl

theorem fieldList_deserialize_str (s : String) :
    fieldListDeserialize (.str s) = .ok (.list ((pySplitComma s).map Value.str)) := by
  show fieldListNodeDeser (.list ((pySplitComma s).map Value.str)) = _
  unfold fieldListNodeDeser
  rw [schemaNodeDeserialize_typD_ok _ _ _ _ _ (sequenceType_map_str (pySplitComma s))]
  rfl

theorem queryFiltersGo_all_str (items : List (String × String)) :
    queryFiltersGo (items.map (fun kv => (kv.1, Value.str kv.2)))
      = .ok (items.map (fun kv =>
          if pyStartsWith "in_" kv.1 ∨ pyStartsWith "exclude_" kv.1 then
            (kv.1, Value.list ((pySplitComma kv.2).map (fun e => nativeValue (.str e))))
          else (kv.1, nativeValue (.str kv.2)))) := by
  induction items with
  | nil => rfl
  | cons kv rest ih =>
    by_cases hc : pyStartsWith "in_" kv.1 ∨ pyStartsWith "exclude_" kv.1
    · simp [queryFiltersGo, hc, fieldList_deserialize_str, ih, List.map_map]
    · simp [queryFiltersGo, hc, ih]

theorem pyDictUpdate_nil (d : List (String × Value)) : pyDictUpdate d [] = d := by
  unfold pyDictUpdate
  simp

/-- C5: deserializing any raw querystring (text keys to text values) through
the base QuerySchema succeeds and maps every entry independently: an
undeclared key prefixed in_ or exclude_ has its value comma-split into a list
with each element native-value guessed, and every other undeclared key has
its value native-value guessed directly; in particular the querystring with
in_id mapped to the text "a,b", deleted mapped to the text "true" and custom
mapped to the text "3" yields in_id mapped to the two-element string list,
deleted mapped to the boolean true and custom mapped to the integer 3. -/
theorem querySchema_filter_guessing (items : List (String × String)) :
    querySchemaDeserialize (.map (items.map (fun kv => (kv.1, Value.str kv.2))))
      = .ok (.map (items.map (fun kv =>
          if pyStartsWith "in_" kv.1 ∨ pyStartsWith "exclude_" kv.1 then
            (kv.1, Value.list ((pySplitComma kv.2).map (fun e => nativeValue (.str e))))
          else (kv.1, nativeValue (.str kv.2))))) ∧
    querySchemaDeserialize (.map [("in_id", .str "a,b"), ("deleted", .str "true"), ("custom", .str "3")])
      = .ok (.map [("in_id", .list [.str "a", .str "b"]), ("deleted", .bool true), ("custom", .int 3)]) := by
  refine ⟨?_, rfl⟩
  have h0 : schemaNodeDeserialize (mappingType .ignore []) .drop noValidator
      (.map (items.map (fun kv => (kv.1, Value.str kv.2)))) = .ok (.map []) := rfl
  unfold querySchemaDeserialize
  rw [h0]
  simp only [queryFiltersGo_all_str, pyDictUpdate_nil]

-- Helper lemmas for the closed-vocabulary permissions proof.

theorem schemaNodeDeserialize_typD_err
    (typD : Value → Except Err Value) (missing : Value) (validator : Value → Option Err)
    (c : Value) (e : Err) (h : typD c = .error e) :
    schemaNodeDeserialize typD missing validator c = .error e := by
  unfold schemaNodeDeserialize
  rw [h]

theorem lookupD_ne_null_mem (m : List (String × Value)) (k : String)
    (h : lookupD m k ≠ .null) : k ∈ m.map Prod.fst := by
  unfold lookupD at h
  cases hf : m.find? (fun kv => kv.1 == k) with
  | none => rw [hf] at h; exact absurd rfl h
  | some kv =>
    have hmem := List.mem_of_find?_eq_some hf
    have hp := List.find?_some hf
    rw [List.mem_map]
    exact ⟨kv, hmem, by simpa using hp⟩

theorem lookupD_mem (m : List (String × Value)) (k : String)
    (h : k ∈ m.map Prod.fst) : ∃ kv ∈ m, kv.1 = k ∧ lookupD m k = kv.2 := by
  have hex : ∃ kv ∈ m, (kv.1 == k) = true := by
    rw [List.mem_map] at h
    obtain ⟨kv, hkv, hk⟩ := h
    exact ⟨kv, hkv, by simpa using hk⟩
  have hsome : (m.find? (fun kv => kv.1 == k)).isSome = true := List.find?_isSome.mpr hex
  obtain ⟨kv, hf⟩ := Option.isSome_iff_exists.mp hsome
  have hp := List.find?_some hf
  refine ⟨kv, List.mem_of_find?_eq_some hf, by simpa using hp, ?_⟩
  unfold lookupD
  rw [hf]

theorem sequenceType_ok_null (child : Value → Except Err Value) (x : Value)
    (h : sequenceType child x = .ok .null) : x = .null := by
  cases x with
  | null => rfl
  | list xs =>
    exfalso
    simp only [sequenceType] at h
    split at h <;> simp_all
  | drop => exact absurd h (by simp [sequenceType])
  | pyNone => exact absurd h (by simp [sequenceType])
  | str s => exact absurd h (by simp [sequenceType])
  | int n => exact absurd h (by simp [sequenceType])
  | bool b => exact absurd h (by simp [sequenceType])
  | num a b => exact absurd h (by simp [sequenceType])
  | map entries => exact absurd h (by simp [sequenceType])

theorem sequenceType_ne_ok_drop (child : Value → Except Err Value) (x : Value) :
    sequenceType child x ≠ .ok .drop := by
  cases x with
  | null => simp [sequenceType]
  | list xs =>
    simp only [sequenceType]
    split <;> simp
  | drop => simp [sequenceType]
  | pyNone => simp [sequenceType]
  | str s => simp [sequenceType]
  | int n => simp [sequenceType]
  | bool b => simp [sequenceType]
  | num a b => simp [sequenceType]
  | map entries => simp [sequenceType]

theorem permNodeDeser_null : permNodeDeser .null = .ok .drop := rfl

theorem permNodeDeser_ok_drop (x : Value) (h : permNodeDeser x = .ok .drop) :
    x = .null := by
  cases hs : sequenceType (schemaNodeDeserialize stringType .null noValidator) x with
  | error e =>
    rw [show permNodeDeser x = .error e from
      schemaNodeDeserialize_typD_err _ _ _ _ _ hs] at h
    exact absurd h (by simp)
  | ok a =>
    rw [show permNodeDeser x = nodePost .drop noValidator a from
      schemaNodeDeserialize_typD_ok _ _ _ _ _ hs] at h
    cases a with
    | null => exact sequenceType_ok_null _ _ hs
    | drop => exact absurd hs (sequenceType_ne_ok_drop _ _)
    | pyNone => simp [nodePost, noValidator] at h
    | str s => simp [nodePost, noValidator] at h
    | int n => simp [nodePost, noValidator] at h
    | bool b => simp [nodePost, noValidator] at h
    | num a b => simp [nodePost, noValidator] at h
    | list xs => simp [nodePost, noValidator] at h
    | map entries => simp [nodePost, noValidator] at h

theorem okOf_ok_ne_drop (n : String) (v : Value) (hv : v ≠ .drop) :
    okOf (n, .ok v) = some (n, v) := by
  cases v <;> first | rfl | exact absurd rfl hv

theorem okOf_eq_some (p : String × Except Err Value) (kvp : String × Value)
    (h : okOf p = some kvp) :
    ∃ v, p.2 = .ok v ∧ v ≠ .drop ∧ kvp = (p.1, v) := by
  obtain ⟨n, r⟩ := p
  cases r with
  | error e => exact absurd h (by simp [okOf])
  | ok v =>
    refine ⟨v, rfl, ?_, ?_⟩
    · intro hd
      rw [hd] at h
      exact absurd h (by simp [okOf])
    · cases v with
      | drop => exact absurd h (by simp [okOf])
      | null => simpa [okOf] using h.symm
      | pyNone => simpa [okOf] using h.symm
      | str s => simpa [okOf] using h.symm
      | int n2 => simpa [okOf] using h.symm
      | bool b => simpa [okOf] using h.symm
      | num a b => simpa [okOf] using h.symm
      | list xs => simpa [okOf] using h.symm
      | map entries => simpa [okOf] using h.symm

/-- C10: for every closed-vocabulary PermissionsSchema and every input mapping
(of sentinel-free values, as every JSON-decoded input is) that deserializes
successfully, the resulting mapping contains exactly the keys present in the
input: known permission names absent from the input are dropped (their child
node carries missing = drop), never filled in with a default. -/
theorem permissions_closed_output_keys (ps : List String)
    (m out : List (String × Value))
    (hps : ps ≠ [])
    (hm : ∀ kv ∈ m, kv.2 ≠ Value.null)
    (h : permissionsSchemaDeserialize ps (.map m) = .ok (.map out)) :
    ∀ k, k ∈ out.map Prod.fst ↔ k ∈ m.map Prod.fst := by
  have hne : ps.isEmpty = false := by
    cases ps with
    | nil => exact absurd rfl hps
    | cons a l => rfl
  simp only [permissionsSchemaDeserialize] at h
  rw [if_pos hne] at h
  cases hfs : firstSome (m.map (fun kv => oneOfCheck ps kv.1)) with
  | some e => rw [hfs] at h; simp at h
  | none =>
  rw [hfs] at h
  have htyD : permissionsSchemaTypD ps = mappingType .raiseU (permChildren ps) := by
    unfold permissionsSchemaTypD
    rw [if_pos hne]
  rw [htyD] at h
  cases hmt : mappingType .raiseU (permChildren ps) (.map m) with
  | error e =>
    rw [schemaNodeDeserialize_typD_err _ _ _ _ _ hmt] at h
    simp at h
  | ok a =>
  rw [schemaNodeDeserialize_typD_ok _ _ _ _ _ hmt] at h
  have ha : a = .map out := by
    cases a with
    | null => simp [nodePost] at h
    | drop => simp [nodePost, noValidator] at h
    | pyNone => simp [nodePost, noValidator] at h
    | str s => simp [nodePost, noValidator] at h
    | int n => simp [nodePost, noValidator] at h
    | bool b => simp [nodePost, noValidator] at h
    | num x y => simp [nodePost, noValidator] at h
    | list xs => simp [nodePost, noValidator] at h
    | map entries =>
      have : entries = out := by simpa [nodePost, noValidator] using h
      rw [this]
  rw [ha] at hmt
  clear h ha
  simp only [mappingType] at hmt
  split at hmt
  · simp at hmt
  next hc1 =>
  split at hmt
  next hc2 => simp at hmt
  next hc2 =>
  have hres : mappingResidual (permChildren ps) m = [] := by
    cases hb : (mappingResidual (permChildren ps) m).isEmpty with
    | true => exact List.isEmpty_iff.mp hb
    | false => exact absurd ⟨trivial, hb⟩ hc1
  have herr : (mappingOutcomes (permChildren ps) m).filterMap errOf = [] := by
    cases hb : ((mappingOutcomes (permChildren ps) m).filterMap errOf).isEmpty with
    | true => exact List.isEmpty_iff.mp hb
    | false => exact absurd hb hc2
  have hout : out = (mappingOutcomes (permChildren ps) m).filterMap okOf := by
    simpa using hmt.symm
  have hkeys : ∀ kv ∈ m, kv.1 ∈ ps := by
    intro kv hkv
    have hnp := List.filter_eq_nil_iff.mp hres kv hkv
    have hb : (permChildren ps).any (fun c => c.name == kv.1) = true := by
      simpa using hnp
    obtain ⟨c, hc, hcn⟩ := List.any_eq_true.mp hb
    unfold permChildren at hc
    obtain ⟨q, hq, hqe⟩ := List.mem_map.mp hc
    subst hqe
    have hqk : q = kv.1 := by simpa using hcn
    rw [← hqk]
    exact hq
  intro k
  constructor
  · intro hk
    obtain ⟨kvp, hkvp, hfst⟩ := List.mem_map.mp hk
    rw [hout] at hkvp
    obtain ⟨p, hp, hok⟩ := List.mem_filterMap.mp hkvp
    obtain ⟨v, hpv, hvd, hkvpe⟩ := okOf_eq_some p kvp hok
    unfold mappingOutcomes at hp
    obtain ⟨c, hcmem, hpe⟩ := List.mem_map.mp hp
    unfold permChildren at hcmem
    obtain ⟨q, hqps, hqe⟩ := List.mem_map.mp hcmem
    subst hqe
    subst hpe
    have hq2 : permNodeDeser (lookupD m q) = .ok v := hpv
    have hkq : k = q := by
      rw [hkvpe] at hfst
      exact hfst.symm
    subst hkq
    apply lookupD_ne_null_mem
    intro hn
    rw [hn] at hq2
    rw [permNodeDeser_null] at hq2
    have : Value.drop = v := by simpa using hq2
    exact hvd this.symm
  · intro hk
    have hkps : k ∈ ps := by
      obtain ⟨kv0, hkv0m, hkv0k⟩ := List.mem_map.mp hk
      rw [← hkv0k]
      exact hkeys kv0 hkv0m
    obtain ⟨kv0, hkv0m, hkv0k, hlk⟩ := lookupD_mem m k hk
    have hcmem : (⟨k, permNodeDeser⟩ : ChildSpec) ∈ permChildren ps := by
      unfold permChildren
      exact List.mem_map.mpr ⟨k, hkps, rfl⟩
    have hpmem : (k, permNodeDeser (lookupD m k)) ∈ mappingOutcomes (permChildren ps) m := by
      unfold mappingOutcomes
      exact List.mem_map.mpr ⟨⟨k, permNodeDeser⟩, hcmem, rfl⟩
    have herrp := List.filterMap_eq_nil_iff.mp herr _ hpmem
    have hexv : ∃ v, permNodeDeser (lookupD m k) = .ok v := by
      cases hv : permNodeDeser (lookupD m k) with
      | error e => simp [errOf, hv] at herrp
      | ok v => exact ⟨v, rfl⟩
    obtain ⟨v, hv⟩ := hexv
    have hvd : v ≠ .drop := by
      intro hd
      rw [hd] at hv
      have hnul := permNodeDeser_ok_drop _ hv
      exact hm kv0 hkv0m (hlk.symm.trans hnul)
    rw [hout]
    apply List.mem_map.mpr
    refine ⟨(k, v), ?_, rfl⟩
    apply List.mem_filterMap.mpr
    refine ⟨(k, permNodeDeser (lookupD m k)), hpmem, ?_⟩
    rw [hv]
    exact okOf_ok_ne_drop k v hvd

/-- C10 witness: the theorem applied to the closed vocabulary of write and
read and the input giving alice the write permission; the read key, absent
from the input, is absent from the output key set as well. -/
theorem permissions_closed_output_keys_witness :
    ("write" ∈ ([("write", Value.list [Value.str "alice"])] : List (String × Value)).map Prod.fst) ∧
    (∀ kv ∈ ([("write", Value.list [Value.str "alice"])] : List (String × Value)), kv.2 ≠ Value.null) ∧
    ("write" ∈ ([("write", Value.list [Value.str "alice"])] : List (String × Value)).map Prod.fst ↔
      "write" ∈ ([("write", Value.list [Value.str "alice"])] : List (String × Value)).map Prod.fst) := by
  refine ⟨by simp, ?_, ?_⟩
  · intro kv hkv
    simp at hkv
    rw [hkv]
    simp
  · exact permissions_closed_output_keys ["write", "read"]
      [("write", Value.list [Value.str "alice"])]
      [("write", Value.list [Value.str "alice"])]
      (by simp)
      (by intro kv hkv; simp at hkv; rw [hkv]; simp)
      rfl "write"

/-- C9: the op-schema path validator matches the patch-path pattern only as a
prefix, not against the whole string: every string whose first character is a
slash passes the validator, and a JSON patch operation whose path and from
carry any such string (its remaining characters unconstrained) deserializes
successfully. -/
theorem jsonPatch_path_prefix_only (s : String) (t : List Char)
    (h : s.toList = '/' :: t) :
    pathValidatorV (.str s) = Option.none ∧
    jsonPatchOpDeserialize (.map [("op", .str "add"), ("path", .str s), ("from", .str s)])
      = .ok (.map [("op", .str "add"), ("path", .str s), ("from", .str s)]) := by
  have hmatch : pathRegexMatch s = true := by
    unfold pathRegexMatch pathGroupMatch
    rw [h]
    rfl
  have hval : pathValidatorV (.str s) = Option.none := by
    simp [pathValidatorV, hmatch]
  refine ⟨hval, ?_⟩
  simp [jsonPatchOpDeserialize, schemaNodeDeserialize, mappingType, mappingOutcomes,
    mappingResidual, lookupD, nodePost, okOf, errOf, stringType, anyType, noValidator,
    opValidator, oneOfValidator, oneOfCheck, hval]

/-- C9 witness: the theorem applied to the path string whose suffix contains
spaces and punctuation outside the word-character class. -/
theorem jsonPatch_path_prefix_only_witness :
    pathValidatorV (.str "/a bad suffix!") = Option.none ∧
    jsonPatchOpDeserialize (.map [("op", .str "add"), ("path", .str "/a bad suffix!"), ("from", .str "/a bad suffix!")])
      = .ok (.map [("op", .str "add"), ("path", .str "/a bad suffix!"), ("from", .str "/a bad suffix!")]) :=
  jsonPatch_path_prefix_only "/a bad suffix!" ("a bad suffix!".toList) rfl
